import Mathlib

/-!
Shallow embedding of the GEO extraction-and-scoring engine
(`src/backend/src/modules/tracking/service.py`,
`src/backend/src/modules/tracking/calculator.py`,
`src/backend/src/modules/citation/service.py`).

Python strings are modelled as `List Char` (type `Str`).  Python floats are
modelled as `ℚ` where arithmetic is exact, and as `ℝ` for the transcendental
frequency formula.  Stateful SQLAlchemy sessions are modelled by explicit
state passing (`Session` with `committed`/`pending` write sets); `flush`
makes pending rows visible to queries and raises on a primary-key conflict,
`rollback` discards all pending writes, `commit` moves pending writes into
the committed set.
-/

/-- Python strings are modelled as lists of characters. -/
abbrev Str := List Char

/-- Python `haystack.find(needle)` restricted to success/failure:
first index at which `nee` occurs as a contiguous substring, if any. -/
def findSub (nee : Str) : Str → Option Nat
  | [] => if nee.isEmpty then some 0 else none
  | c :: t => if nee.isPrefixOf (c :: t) then some 0 else (findSub nee t).map (· + 1)

/-- Python `pat in hay` substring containment. -/
def containsSub (hay pat : Str) : Bool := (findSub pat hay).isSome

/-- Python `s.lower()` (ASCII model, via `Char.toLower`). -/
def pyLower (s : Str) : Str := s.map Char.toLower

/-- Python `s.strip()`: drop whitespace from both ends. -/
def pyStrip (s : Str) : Str :=
  ((s.dropWhile Char.isWhitespace).reverse.dropWhile Char.isWhitespace).reverse

/-- The character class `[a-z0-9]` of the normalization regex. -/
def isAsciiLowerAlnum (c : Char) : Bool :=
  decide (97 ≤ c.toNat ∧ c.toNat ≤ 122) || decide (48 ≤ c.toNat ∧ c.toNat ≤ 57)

/-- `normalize_brand_name` from `tracking/service.py`:
`re.sub(r'[^a-z0-9]', '', name.lower())`. -/
def normalize_brand_name (name : Str) : Str :=
  (pyLower name).filter isAsciiLowerAlnum

/-- The literal `'www.'` checked by `normalize_domain`. -/
def wwwStr : Str := "www.".data

/-- `normalize_domain` from `citation/service.py`: lowercase, strip
whitespace, and remove one leading `www.`. -/
def normalize_domain (domain : Str) : Str :=
  let d := pyStrip (pyLower domain)
  if wwwStr.isPrefixOf d then d.drop 4 else d

/-! ### Source classification and authority scoring (`citation/service.py`) -/

/-- The `SourceType` enum of `citation/models.py`. -/
inductive SourceType where
  | website | news | academic | social | gov | edu | docs | ecommerce | unknown
deriving DecidableEq

/-- News-outlet keyword set of `classify_source_type`. -/
def newsKeywords : List Str :=
  ["nytimes".data, "bbc".data, "reuters".data, "cnn".data, "washingtonpost".data,
   "theguardian".data, "forbes".data, "bloomberg".data, "wsj".data, "news".data]

/-- Academic keyword set of `classify_source_type`. -/
def academicKeywords : List Str :=
  ["arxiv".data, "scholar".data, "pubmed".data, "researchgate".data, "jstor".data,
   "springer".data, "wiley".data, "nature.com".data, "science.org".data]

/-- Social-platform keyword set of `classify_source_type`. -/
def socialKeywords : List Str :=
  ["twitter".data, "x.com".data, "facebook".data, "linkedin".data, "reddit".data,
   "instagram".data, "tiktok".data, "youtube".data]

/-- Docs/API keyword set of `classify_source_type`. -/
def docsKeywords : List Str :=
  ["docs.".data, "documentation".data, "readme".data, "github.io".data,
   "developer.".data, "api.".data]

/-- E-commerce keyword set of `classify_source_type`. -/
def ecomKeywords : List Str :=
  ["amazon".data, "ebay".data, "shopify".data, "etsy".data, "alibaba".data]

/-- `classify_source_type` from `citation/service.py`: ordered first-match
rule list over the lowercased domain. -/
def classify_source_type (domain : Str) : SourceType :=
  let d := pyLower domain
  if ".gov".data.isSuffixOf d then SourceType.gov
  else if ".edu".data.isSuffixOf d then SourceType.edu
  else if newsKeywords.any (fun k => containsSub d k) then SourceType.news
  else if academicKeywords.any (fun k => containsSub d k) then SourceType.academic
  else if socialKeywords.any (fun k => containsSub d k) then SourceType.social
  else if docsKeywords.any (fun k => containsSub d k) then SourceType.docs
  else if ecomKeywords.any (fun k => containsSub d k) then SourceType.ecommerce
  else SourceType.website

/-- The `base_scores` table of `calculate_authority_score`. -/
def base_scores : SourceType → ℚ
  | SourceType.gov => 90
  | SourceType.edu => 85
  | SourceType.academic => 85
  | SourceType.news => 75
  | SourceType.docs => 70
  | SourceType.website => 50
  | SourceType.social => 40
  | SourceType.ecommerce => 45
  | SourceType.unknown => 30

/-- The `known_high_authority` allowlist of `calculate_authority_score`. -/
def known_high_authority : List Str :=
  ["wikipedia.org".data, "github.com".data, "stackoverflow.com".data,
   "medium.com".data, "microsoft.com".data, "google.com".data, "apple.com".data]

/-- Whether the lowercased domain contains an allowlisted high-authority name. -/
def hasKnownHighAuthority (domain : Str) : Bool :=
  known_high_authority.any (fun k => containsSub (pyLower domain) k)

/-- `calculate_authority_score` from `citation/service.py`: base table score
plus an allowlist bonus of 10, capped at 100. -/
def calculate_authority_score (domain : Str) (source_type : SourceType) : ℚ :=
  let score := base_scores source_type
  if hasKnownHighAuthority domain then min 100 (score + 10) else score

/-! ### Tracking data model (`tracking/models.py`) -/

/-- The `Platform` enum of `tracking/models.py`. -/
inductive Platform where
  | chatgpt | claude | perplexity | gemini | other
deriving DecidableEq

/-- The `MessageRole` enum of `tracking/models.py`. -/
inductive MessageRole where
  | user | assistant | system
deriving DecidableEq

/-- The `MentionType` enum of `tracking/models.py`. -/
inductive MentionType where
  | direct | indirect | comparison | recommendation | negative
deriving DecidableEq

/-- Enum lookup `Platform(value)`, `none` meaning `ValueError`. -/
def platformOfString (s : Str) : Option Platform :=
  if s = "chatgpt".data then some Platform.chatgpt
  else if s = "claude".data then some Platform.claude
  else if s = "perplexity".data then some Platform.perplexity
  else if s = "gemini".data then some Platform.gemini
  else if s = "other".data then some Platform.other
  else none

/-- Enum lookup `MessageRole(value)`, `none` meaning `ValueError`. -/
def messageRoleOfString (s : Str) : Option MessageRole :=
  if s = "user".data then some MessageRole.user
  else if s = "assistant".data then some MessageRole.assistant
  else if s = "system".data then some MessageRole.system
  else none

/-- A registered brand (`Brand` row); `aliases` is the decoded JSON array,
`none` when the column is NULL. -/
structure Brand where
  name : Str
  normalized_name : Str
  aliases : Option (List Str)
  is_active : Bool
  is_competitor : Bool
deriving DecidableEq

/-- A stored conversation (`Conversation` row). -/
structure Conversation where
  id : Str
  session_id : Str
  platform : Platform
  initial_query : Str
  captured_at : Str
  language : Option Str
  region : Option Str
  user_agent : Option Str
deriving DecidableEq

/-- A stored message (`Message` row); `id` is the autoincrement key. -/
structure Message where
  id : Nat
  conversation_id : Str
  role : MessageRole
  content : Str
  sequence : Nat
  timestamp : Str
deriving DecidableEq

/-- A stored brand mention (`BrandMention` row). -/
structure BrandMention where
  conversation_id : Str
  message_id : Nat
  brand_name : Str
  brand_normalized : Str
  mention_type : MentionType
  position : Nat
  context : Str
  sentiment : ℚ
  confidence : ℚ
deriving DecidableEq

/-! ### Mention classification (`TrackingService._classify_mention`) -/

/-- The `recommend_patterns` list of `_classify_mention`. -/
def recommend_patterns : List Str :=
  ["recommend".data, "suggest".data, "try".data, "consider".data, "best".data,
   "top pick".data, "great choice".data, "highly rated".data]

/-- The `compare_patterns` list of `_classify_mention`. -/
def compare_patterns : List Str :=
  ["compared to".data, "versus".data, "vs".data, "better than".data, "worse than".data,
   "similar to".data, "alternative to".data, "like".data]

/-- The `negative_patterns` list of `_classify_mention`. -/
def negative_patterns : List Str :=
  ["not recommend".data, "avoid".data, "issue".data, "problem".data, "bad".data,
   "poor".data, "disappointing".data, "don\x27t".data]

/-- The lowercased classification window
`content[max(0,position-50) : min(len,position+len(brand)+50)].lower()`. -/
def windowContext (content : Str) (position : Nat) (brand_name : Str) : Str :=
  let start := position - 50
  let stop := min content.length (position + brand_name.length + 50)
  pyLower ((content.drop start).take (stop - start))

/-- `TrackingService._classify_mention`: four ordered keyword sets,
first match wins, default `DIRECT`. -/
def classify_mention (content : Str) (position : Nat) (brand_name : Str) : MentionType :=
  let context := windowContext content position brand_name
  if recommend_patterns.any (fun p => containsSub context p) then MentionType.recommendation
  else if compare_patterns.any (fun p => containsSub context p) then MentionType.comparison
  else if negative_patterns.any (fun p => containsSub context p) then MentionType.negative
  else MentionType.direct

/-! ### Mention extraction (`TrackingService._extract_mentions`) -/

/-- The candidate name list `[brand.name] + aliases` of `_extract_mentions`. -/
def namesToCheck (b : Brand) : List Str :=
  b.name :: (match b.aliases with | some a => a | none => [])

/-- The `BrandMention` record built by `_extract_mentions` for a hit of
candidate `name` at offset `pos` in `msg.content`. -/
def mkMention (convId : Str) (msg : Message) (b : Brand) (name : Str) (pos : Nat) :
    BrandMention :=
  let start := pos - 100
  let stop := min msg.content.length (pos + name.length + 100)
  { conversation_id := convId
    message_id := msg.id
    brand_name := b.name
    brand_normalized := b.normalized_name
    mention_type := classify_mention msg.content pos name
    position := pos
    context := (msg.content.drop start).take (stop - start)
    sentiment := 0
    confidence := 4/5 }

/-- The inner `for name in names_to_check` loop: first candidate name that
occurs (case-insensitively) yields one mention, then `break`. -/
def firstCandidate (convId : Str) (msg : Message) (b : Brand) : List Str → Option BrandMention
  | [] => none
  | name :: rest =>
    match findSub (pyLower name) (pyLower msg.content) with
    | some pos => some (mkMention convId msg b name pos)
    | none => firstCandidate convId msg b rest

/-- At most one mention of brand `b` in message `msg`. -/
def mentionForBrand (convId : Str) (msg : Message) (b : Brand) : Option BrandMention :=
  firstCandidate convId msg b (namesToCheck b)

/-- The `for brand in brands` loop over one assistant message. -/
def mentionsInMessage (brands : List Brand) (convId : Str) (msg : Message) :
    List BrandMention :=
  brands.filterMap (fun b => mentionForBrand convId msg b)

/-- Stable insertion by ascending `sequence` (model of `ORDER BY sequence`). -/
def insertAsc (x : Message) : List Message → List Message
  | [] => [x]
  | y :: ys => if x.sequence ≤ y.sequence then x :: y :: ys else y :: insertAsc x ys

/-- Stable sort by ascending `sequence`. -/
def sortBySequence : List Message → List Message
  | [] => []
  | m :: ms => insertAsc m (sortBySequence ms)

/-- `TrackingService._extract_mentions`: active brands are matched in every
assistant message of the conversation, at most one hit per brand per
message. -/
def extract_mentions (brands : List Brand) (convId : Str) (dbMessages : List Message) :
    List BrandMention :=
  let active := brands.filter (fun b => b.is_active)
  let msgs := sortBySequence (dbMessages.filter
    (fun m => m.conversation_id == convId && m.role == MessageRole.assistant))
  (msgs.map (fun m => mentionsInMessage active convId m)).flatten

/-! ### Visibility calculator (`tracking/calculator.py`) -/

/-- The pure shape `min(1.0, log1p(rate * 10) / log1p(10))` of
`_calculate_frequency_score`, as a function of the mention rate. -/
noncomputable def frequencyOfRate (rate : ℝ) : ℝ :=
  min 1 (Real.log (1 + rate * 10) / Real.log (1 + 10))

/-- `VisibilityCalculator._calculate_frequency_score`: logarithmic scaling
of `mention_count / total_conversations`, with an explicit zero guard. -/
noncomputable def calculate_frequency_score (mention_count total_conversations : ℕ) : ℝ :=
  if total_conversations = 0 then 0
  else
    min 1 (Real.log (1 + (mention_count : ℝ) / (total_conversations : ℝ) * 10) /
      Real.log (1 + 10))

/-- The `conv_result.scalar() or 1` denominator floor in
`calculate_daily_scores` (line 99 of `calculator.py`). -/
def conversationCountOrOne (n : ℕ) : ℕ := if n = 0 then 1 else n

/-- The raw `change` variable of `VisibilityCalculator._calculate_trend`:
percentage change with explicit branches for a zero previous average. -/
def rawTrendChange (current_avg prev_avg : ℚ) : ℚ :=
  if 0 < prev_avg then (current_avg - prev_avg) / prev_avg * 100
  else if 0 < current_avg then 100 else 0

/-- The direction branch of `_calculate_trend`: strict ±5 thresholds. -/
def trendDirection (change : ℚ) : Str :=
  if 5 < change then "up".data
  else if change < -5 then "down".data
  else "stable".data

/-- Python `round(x)` to an integer: round half to even. -/
def pythonRoundInt (x : ℚ) : ℤ :=
  if x - ⌊x⌋ < 1/2 then ⌊x⌋
  else if 1/2 < x - ⌊x⌋ then ⌊x⌋ + 1
  else if 2 ∣ ⌊x⌋ then ⌊x⌋ else ⌊x⌋ + 1

/-- Python `round(x, 1)`: round to one decimal digit, half to even. -/
def pythonRound1 (x : ℚ) : ℚ := (pythonRoundInt (x * 10) : ℚ) / 10

/-- `VisibilityCalculator._calculate_trend` result
`{'direction': ..., 'change': round(change, 1)}` as a (direction, change)
pair. -/
def calculate_trend (current_avg prev_avg : ℚ) : Str × ℚ :=
  let change := rawTrendChange current_avg prev_avg
  (trendDirection change, pythonRound1 change)

/-! ### Ranking (`TrackingService.get_ranking`) -/

/-- One entry of the `rankings` list built by `get_ranking` (the
`RankingItem` schema). -/
structure RankingItem where
  brand_name : Str
  score : ℚ
  rank : Nat
  mention_count : Nat
deriving DecidableEq

/-- The `RankingResponse` schema fields produced by `get_ranking`. -/
structure RankingResponse where
  brand : Str
  brand_rank : Nat
  brand_score : ℚ
  rankings : List RankingItem
  total_brands : Nat
deriving DecidableEq

/-- Stable insertion by descending `score`: an element moves past only
strictly greater-scored earlier elements, so equal scores keep their
original relative order (the guarantee of Python's stable `list.sort` with
`reverse=True`). -/
def insertScoreDesc (x : RankingItem) : List RankingItem → List RankingItem
  | [] => [x]
  | y :: ys => if y.score ≤ x.score then x :: y :: ys else y :: insertScoreDesc x ys

/-- Stable sort by descending `score`
(`rankings.sort(key=lambda x: x.score, reverse=True)`). -/
def sortScoreDesc : List RankingItem → List RankingItem
  | [] => []
  | x :: xs => insertScoreDesc x (sortScoreDesc xs)

/-- The `for i, r in enumerate(rankings): r.rank = i + 1` pass. -/
def assignRanks : List RankingItem → Nat → List RankingItem
  | [], _ => []
  | x :: xs, i => { x with rank := i + 1 } :: assignRanks xs (i + 1)

/-- The score resolution of `get_ranking` (line 444):
`latest_score.score if latest_score else min(100, mention_count * 5)`. -/
def ranking_brand_score (latest_score : Option ℚ) (mention_count : ℕ) : ℚ :=
  match latest_score with
  | some s => s
  | none => min 100 ((mention_count : ℚ) * 5)

/-- The pure tail of `TrackingService.get_ranking` after the per-brand
queries: stable descending sort, position ranks, target extraction, and the
competitor list with the target filtered out and truncated to `limit`. -/
def get_ranking (brand : Str) (prelim : List RankingItem) (limit : Nat) : RankingResponse :=
  let ranked := assignRanks (sortScoreDesc prelim) 0
  let bn := normalize_brand_name brand
  let brandItem := ranked.find? (fun r => normalize_brand_name r.brand_name == bn)
  { brand := brand
    brand_rank := match brandItem with | some r => r.rank | none => 0
    brand_score := match brandItem with | some r => r.score | none => 0
    rankings := (ranked.filter (fun r => !(normalize_brand_name r.brand_name == bn))).take limit
    total_brands := ranked.length }

/-! ### Visibility fallback (`TrackingService.get_visibility`) -/

/-- A stored `VisibilityScore` row as read by `get_visibility`. -/
structure ScoreRow where
  date : Str
  score : ℚ
  mention_count : Nat
  avg_sentiment : ℚ
deriving DecidableEq

/-- The score/previous/change computation of `get_visibility` (lines
316-343): when score rows exist, last/first row and percent change; when
none exist, the `min(100, total_mentions * 5)` fallback with `None`
previous score and change. Returns
(current_score, previous_score, change_percent, total_mentions). -/
def visibility_metrics (scores : List ScoreRow) (mention_count : Nat) :
    ℚ × Option ℚ × Option ℚ × Nat :=
  match scores with
  | [] => (min 100 ((mention_count : ℚ) * 5), none, none, mention_count)
  | s0 :: rest =>
    let current := ((s0 :: rest).getLast (List.cons_ne_nil s0 rest)).score
    let previous : Option ℚ := if rest.isEmpty then none else some s0.score
    let change : Option ℚ :=
      match previous with
      | some p => if 0 < p then some ((current - p) / p * 100) else none
      | none => none
    (current, previous, change, ((s0 :: rest).map (fun s => s.mention_count)).sum)

/-! ### Upload pipeline (`TrackingService.upload_conversations`) -/

/-- An uploaded message (`MessageUploadItem` schema). -/
structure MessageUploadItem where
  role : Str
  content : Str
  timestamp : Option Str
deriving DecidableEq

/-- An uploaded conversation (`ConversationUploadItem` schema); `metadata`
is the optional dict. -/
structure ConversationUploadItem where
  id : Str
  session_id : Str
  platform : Str
  messages : List MessageUploadItem
  captured_at : Str
  metadata : Option (List (Str × Str))
deriving DecidableEq

/-- The `UploadResponse` schema. -/
structure UploadResponse where
  received : Nat
  processed : Nat
  brand_mentions_found : Nat
  errors : List Str
deriving DecidableEq

/-- Python `s.replace('Z', '+00:00')`. -/
def replaceZ (s : Str) : Str :=
  s.flatMap (fun c => if c = 'Z' then "+00:00".data else [c])

/-- Model of the stdlib `datetime.fromisoformat` validity check: the string
must start with a `YYYY-MM-DD` digit/dash date prefix. Only
success/failure matters to the embedded code; the parsed datetime is
represented by the string itself. -/
def isoOk (s : Str) : Bool :=
  match s with
  | y1 :: y2 :: y3 :: y4 :: d1 :: m1 :: m2 :: d2 :: dd1 :: dd2 :: _ =>
    y1.isDigit && y2.isDigit && y3.isDigit && y4.isDigit && (d1 == '-') &&
      m1.isDigit && m2.isDigit && (d2 == '-') && dd1.isDigit && dd2.isDigit
  | _ => false

/-- Model of `datetime.fromisoformat`: `none` meaning `ValueError`. -/
def pyFromIsoformat (s : Str) : Option Str :=
  if isoOk s then some s else none

/-- Python `d.get(k)` on the metadata dict, `None` when the dict is absent. -/
def metadataGet (md : Option (List (Str × Str))) (k : Str) : Option Str :=
  match md with
  | some d => (d.find? (fun kv => kv.1 == k)).map (fun kv => kv.2)
  | none => none

/-- The tables touched by one upload batch. -/
structure DB where
  conversations : List Conversation
  messages : List Message
  mentions : List BrandMention
deriving DecidableEq

/-- The empty write set. -/
def DB.empty : DB := ⟨[], [], []⟩

/-- Append two write sets (committing pending rows). -/
def DB.merge (a b : DB) : DB :=
  ⟨a.conversations ++ b.conversations, a.messages ++ b.messages, a.mentions ++ b.mentions⟩

/-- An `AsyncSession`: committed rows, pending (flushed but uncommitted)
rows, the brand registry, and the message autoincrement counter. -/
structure Session where
  brands : List Brand
  committed : DB
  pending : DB
  nextMessageId : Nat
deriving DecidableEq

/-- The message-role fallback `MessageRole(msg_item.role.lower())` with
`ValueError` defaulting to `USER`. -/
def uploadMessageRole (mi : MessageUploadItem) : MessageRole :=
  match messageRoleOfString (pyLower mi.role) with
  | some r => r
  | none => MessageRole.user

/-- The message-timestamp fallback: a present, non-empty, parseable
timestamp is used, otherwise the conversation's `captured_at`. -/
def uploadMessageTimestamp (mi : MessageUploadItem) (captured_at : Str) : Str :=
  match mi.timestamp with
  | some ts =>
    if ts.isEmpty then captured_at
    else
      match pyFromIsoformat (replaceZ ts) with
      | some t => t
      | none => captured_at
  | none => captured_at

/-- The `for seq, msg_item in enumerate(item.messages)` loop: build the
`Message` rows with sequential autoincrement ids. -/
def buildMessages (convId : Str) (captured_at : Str) (nextId : Nat) :
    Nat → List MessageUploadItem → List Message
  | _, [] => []
  | seq, mi :: rest =>
    { id := nextId + seq
      conversation_id := convId
      role := uploadMessageRole mi
      content := mi.content
      sequence := seq
      timestamp := uploadMessageTimestamp mi captured_at } ::
      buildMessages convId captured_at nextId (seq + 1) rest

/-- The `initial_query` extraction: first raw-role `"user"` message,
truncated to 500 characters. -/
def uploadInitialQuery (item : ConversationUploadItem) : Str :=
  match item.messages.find? (fun m => m.role == "user".data) with
  | some m => m.content.take 500
  | none => []

/-- The platform fallback `Platform(item.platform.lower())` with
`ValueError` defaulting to `OTHER`. -/
def uploadPlatform (item : ConversationUploadItem) : Platform :=
  match platformOfString (pyLower item.platform) with
  | some p => p
  | none => Platform.other

/-- The `Conversation` row built by `upload_conversations` for one item. -/
def uploadConversation (item : ConversationUploadItem) (captured_at : Str) : Conversation :=
  { id := item.id
    session_id := item.session_id
    platform := uploadPlatform item
    initial_query := uploadInitialQuery item
    captured_at := captured_at
    language := metadataGet item.metadata "language".data
    region := metadataGet item.metadata "region".data
    user_agent := metadataGet item.metadata "userAgent".data }

/-- The try-block body of `upload_conversations` for one item: parse the
timestamp (raising on malformed input), build the conversation and message
rows, flush (raising on a duplicate conversation id), and extract mentions.
Returns the updated session and the number of mentions found, or the raised
error string. -/
def processItem (sess : Session) (item : ConversationUploadItem) :
    Except Str (Session × Nat) :=
  match pyFromIsoformat (replaceZ item.captured_at) with
  | none => Except.error ("Invalid isoformat string: ".data ++ item.captured_at)
  | some captured_at =>
    let conv : Conversation := uploadConversation item captured_at
    let msgs := buildMessages item.id captured_at sess.nextMessageId 0 item.messages
    if (sess.committed.conversations ++ sess.pending.conversations).any
        (fun c => c.id == item.id) then
      Except.error "UNIQUE constraint failed: conversations.id".data
    else
      let pendingAfterFlush : DB :=
        { conversations := sess.pending.conversations ++ [conv]
          messages := sess.pending.messages ++ msgs
          mentions := sess.pending.mentions }
      let mentions := extract_mentions sess.brands conv.id
        (sess.committed.messages ++ pendingAfterFlush.messages)
      Except.ok
        ({ sess with
            pending := { pendingAfterFlush with
              mentions := pendingAfterFlush.mentions ++ mentions }
            nextMessageId := sess.nextMessageId + item.messages.length },
         mentions.length)

/-- The error string appended on a caught exception:
`f"Error processing {item.id}: {str(e)}"`. -/
def errorEntry (item : ConversationUploadItem) (e : Str) : Str :=
  "Error processing ".data ++ item.id ++ ": ".data ++ e

/-- The `for item in items` loop of `upload_conversations`: on success the
counters advance; on a caught exception the error is recorded and
`db.rollback()` discards every pending write of the batch so far. -/
def uploadLoop (sess : Session) (processed found : Nat) (errors : List Str) :
    List ConversationUploadItem → Session × Nat × Nat × List Str
  | [] => (sess, processed, found, errors)
  | item :: rest =>
    match processItem sess item with
    | Except.ok (s', m) => uploadLoop s' (processed + 1) (found + m) errors rest
    | Except.error e =>
      uploadLoop { sess with pending := DB.empty } processed found
        (errors ++ [errorEntry item e]) rest

/-- `TrackingService.upload_conversations`: run the loop, then
`db.commit()` the surviving pending writes, and return the
`UploadResponse`. -/
def upload_conversations (sess : Session) (items : List ConversationUploadItem) :
    Session × UploadResponse :=
  let r := uploadLoop sess 0 0 [] items
  ({ r.1 with committed := DB.merge r.1.committed r.1.pending, pending := DB.empty },
   { received := items.length
     processed := r.2.1
     brand_mentions_found := r.2.2.1
     errors := r.2.2.2 })

/-! ### Concrete fixtures used by the example scenarios -/

/-- A registered active brand "Acme". -/
def acmeBrand : Brand :=
  { name := "Acme".data, normalized_name := "acme".data, aliases := none,
    is_active := true, is_competitor := false }

/-- An assistant message containing the brand name three times. -/
def msgAcme3 : Message :=
  { id := 1, conversation_id := "c".data, role := MessageRole.assistant,
    content := "Acme and Acme and Acme".data, sequence := 0, timestamp := "t".data }

/-- A committed conversation with id `c1`, already present before the upload
batch. -/
def cexConv : Conversation :=
  { id := "c1".data, session_id := "s".data, platform := Platform.chatgpt,
    initial_query := [], captured_at := "2024-01-01T00:00:00".data,
    language := none, region := none, user_agent := none }

/-- The session before the upload batch: one committed conversation `c1`,
no brands, nothing pending. -/
def cexSession : Session :=
  { brands := [], committed := { conversations := [cexConv], messages := [], mentions := [] },
    pending := DB.empty, nextMessageId := 0 }

/-- An upload item with the given conversation id and no messages. -/
def mkCexItem (i : Str) : ConversationUploadItem :=
  { id := i, session_id := "s".data, platform := "chatgpt".data, messages := [],
    captured_at := "2024-01-01T00:00:00".data, metadata := none }

/-- First batch item (fresh id `a`, processes cleanly). -/
def cexItemA : ConversationUploadItem := mkCexItem "a".data

/-- Second batch item (id `c1` collides with the committed conversation, so
its flush raises). -/
def cexItemB : ConversationUploadItem := mkCexItem "c1".data

/-- Third batch item (fresh id `b`, processes cleanly). -/
def cexItemC : ConversationUploadItem := mkCexItem "b".data

/-- The conversation row created for `cexItemA`. -/
def cexConvA : Conversation :=
  { id := "a".data, session_id := "s".data, platform := Platform.chatgpt,
    initial_query := [], captured_at := "2024-01-01T00:00:00".data,
    language := none, region := none, user_agent := none }

/-- The conversation row created for `cexItemC`. -/
def cexConvC : Conversation :=
  { id := "b".data, session_id := "s".data, platform := Platform.chatgpt,
    initial_query := [], captured_at := "2024-01-01T00:00:00".data,
    language := none, region := none, user_agent := none }

/-- The session state after `cexItemA` processed (its row pending). -/
def cexSA : Session :=
  { brands := [], committed := { conversations := [cexConv], messages := [], mentions := [] },
    pending := { conversations := [cexConvA], messages := [], mentions := [] },
    nextMessageId := 0 }

/-- The session state after the rollback and `cexItemC` processed. -/
def cexSC : Session :=
  { brands := [], committed := { conversations := [cexConv], messages := [], mentions := [] },
    pending := { conversations := [cexConvC], messages := [], mentions := [] },
    nextMessageId := 0 }

/-- A ranking entry "X" with score 10 (pre-sort, rank unset). -/
def rankItemX : RankingItem :=
  { brand_name := "X".data, score := 10, rank := 0, mention_count := 0 }

/-- A ranking entry "Y" with score 8 (pre-sort, rank unset). -/
def rankItemY : RankingItem :=
  { brand_name := "Y".data, score := 8, rank := 0, mention_count := 0 }

/-- The entry "Y" as it appears in the ranked competitor list (rank 2). -/
def rankedY : RankingItem :=
  { brand_name := "Y".data, score := 8, rank := 2, mention_count := 0 }

/-! ### Character-level helper lemmas -/

/-- A map whose function fixes every element of the list is the identity. -/
theorem map_id_of_fixed {α : Type} {f : α → α} :
    ∀ l : List α, (∀ c ∈ l, f c = c) → l.map f = l
  | [], _ => rfl
  | c :: t, h => by
    simp only [List.map_cons, List.cons.injEq]
    exact ⟨h c (List.mem_cons_self c t), map_id_of_fixed t fun x hx => h x (List.mem_cons_of_mem c hx)⟩

/-- Lowercase ASCII alphanumeric characters are fixed by `Char.toLower`. -/
theorem toLower_of_alnum {c : Char} (h : isAsciiLowerAlnum c = true) : c.toLower = c := by
  simp [isAsciiLowerAlnum] at h
  simp only [Char.toLower]
  split
  · omega
  · rfl

/-- Converting a basic-latin code point to a character and back is the
identity. -/
theorem char_toNat_ofNat_basic {n : Nat} (h1 : 97 ≤ n) (h2 : n ≤ 122) :
    (Char.ofNat n).toNat = n := by
  interval_cases n <;> decide

/-- `Char.toLower` is idempotent. -/
theorem toLower_toLower (c : Char) : c.toLower.toLower = c.toLower := by
  simp only [Char.toLower]
  split
  · next h =>
    have ht : (Char.ofNat (c.toNat + 32)).toNat = c.toNat + 32 :=
      char_toNat_ofNat_basic (by omega) (by omega)
    rw [if_neg]
    rw [ht]
    omega
  · rfl

/-- `isAsciiLowerAlnum` holds only for `Char.toLower`-fixed characters,
so filtering by it after lowering gives a lowercase string. -/
theorem pyLower_filter_alnum (l : Str) :
    pyLower (l.filter isAsciiLowerAlnum) = l.filter isAsciiLowerAlnum :=
  map_id_of_fixed _ fun c hc => toLower_of_alnum (List.mem_filter.mp hc).2

/-- Membership in `pyStrip l` implies membership in `l`. -/
theorem mem_of_mem_pyStrip {c : Char} {l : Str} (h : c ∈ pyStrip l) : c ∈ l := by
  unfold pyStrip at h
  rw [List.mem_reverse] at h
  have h2 := (List.dropWhile_sublist (l := (l.dropWhile Char.isWhitespace).reverse)
    (p := Char.isWhitespace)).mem h
  rw [List.mem_reverse] at h2
  exact (List.dropWhile_sublist (l := l) (p := Char.isWhitespace)).mem h2

/-- Every character of a normalized domain is `Char.toLower`-fixed. -/
theorem pyLower_normalize_domain (x : Str) :
    pyLower (normalize_domain x) = normalize_domain x := by
  apply map_id_of_fixed
  intro c hc
  have hmem : c ∈ pyLower x := by
    simp only [normalize_domain] at hc
    split at hc
    · exact mem_of_mem_pyStrip (List.mem_of_mem_drop hc)
    · exact mem_of_mem_pyStrip hc
  obtain ⟨a, _, rfl⟩ := List.mem_map.mp hmem
  exact toLower_toLower a

/-! ### C2: normalizer idempotence and case/punctuation insensitivity -/

/-- C2 counterexample: `normalize_domain` is not idempotent. It strips only
one leading `www.`, so `"www.www.example.com"` normalizes to
`"www.example.com"`, which normalizes again to `"example.com"`. -/
theorem normalize_domain_not_idempotent :
    normalize_domain (normalize_domain "www.www.example.com".data) ≠
      normalize_domain "www.www.example.com".data := by decide

/-- C2 (amended): `normalize_brand_name` is total, deterministic and
idempotent, and case/punctuation-insensitive
(`normalize_brand_name "Acme, Inc." = normalize_brand_name "acme inc"`);
`normalize_domain` is idempotent except when removing one leading `www.`
exposes another `www.` prefix or leading whitespace: whenever its output is
whitespace-trimmed and does not itself start with `www.`, normalizing again
is the identity. -/
theorem normalizers_idempotent_amended :
    (∀ x : Str, normalize_brand_name (normalize_brand_name x) = normalize_brand_name x) ∧
    (∀ x : Str, normalize_brand_name (pyLower x) = normalize_brand_name x) ∧
    (normalize_brand_name "Acme, Inc.".data = normalize_brand_name "acme inc".data) ∧
    (∀ x : Str, pyStrip (normalize_domain x) = normalize_domain x →
      wwwStr.isPrefixOf (normalize_domain x) = false →
      normalize_domain (normalize_domain x) = normalize_domain x) := by
  refine ⟨?_, ?_, by decide, ?_⟩
  · intro x
    show (pyLower ((pyLower x).filter isAsciiLowerAlnum)).filter isAsciiLowerAlnum =
      (pyLower x).filter isAsciiLowerAlnum
    rw [pyLower_filter_alnum]
    exact List.filter_eq_self.mpr fun c hc => (List.mem_filter.mp hc).2
  · intro x
    show ((pyLower x).map Char.toLower).filter isAsciiLowerAlnum = _
    have : (pyLower x).map Char.toLower = pyLower x :=
      map_id_of_fixed _ fun c hc => by
        obtain ⟨a, _, rfl⟩ := List.mem_map.mp hc
        exact toLower_toLower a
    rw [this]
    rfl
  · intro x hstrip hwww
    show (let d := pyStrip (pyLower (normalize_domain x));
      if wwwStr.isPrefixOf d then d.drop 4 else d) = normalize_domain x
    rw [pyLower_normalize_domain, hstrip]
    simp [hwww]

/-- C2 witness: a concrete input satisfying the side conditions of the
amended domain idempotence. -/
theorem normalizers_idempotent_amended_witness :
    normalize_domain (normalize_domain "Www.Example.COM".data) =
      normalize_domain "Www.Example.COM".data :=
  normalizers_idempotent_amended.2.2.2 "Www.Example.COM".data (by decide) (by decide)

/-! ### C8: source classification and authority scoring -/

/-- C8: `classify_source_type` applies the ordered first-match rule list
(`docs.example.com` is DOCS, `example.gov` is GOV), the base authority
table is GOV 90, EDU 85, ACADEMIC 85, NEWS 75, DOCS 70, WEBSITE 50,
ECOMMERCE 45, SOCIAL 40, UNKNOWN 30, and an allowlisted domain gets +10
capped at 100 while any other domain gets exactly the base score. -/
theorem classify_source_and_authority :
    classify_source_type "docs.example.com".data = SourceType.docs ∧
    calculate_authority_score "docs.example.com".data SourceType.docs = 70 ∧
    classify_source_type "example.gov".data = SourceType.gov ∧
    calculate_authority_score "example.gov".data SourceType.gov = 90 ∧
    (base_scores SourceType.gov = 90 ∧ base_scores SourceType.edu = 85 ∧
      base_scores SourceType.academic = 85 ∧ base_scores SourceType.news = 75 ∧
      base_scores SourceType.docs = 70 ∧ base_scores SourceType.website = 50 ∧
      base_scores SourceType.ecommerce = 45 ∧ base_scores SourceType.social = 40 ∧
      base_scores SourceType.unknown = 30) ∧
    (∀ d t, hasKnownHighAuthority d = false →
      calculate_authority_score d t = base_scores t) ∧
    (∀ d t, hasKnownHighAuthority d = true →
      calculate_authority_score d t = min 100 (base_scores t + 10)) := by
  refine ⟨by decide, by decide, by decide, by decide, by decide, ?_, ?_⟩
  · intro d t h
    simp [calculate_authority_score, h]
  · intro d t h
    simp [calculate_authority_score, h]

/-- C8 witness: the allowlist bonus and the plain base score at concrete
domains. -/
theorem classify_source_and_authority_witness :
    calculate_authority_score "en.wikipedia.org".data SourceType.website =
      min 100 (base_scores SourceType.website + 10) ∧
    calculate_authority_score "docs.example.com".data SourceType.docs =
      base_scores SourceType.docs :=
  ⟨classify_source_and_authority.2.2.2.2.2.2 "en.wikipedia.org".data SourceType.website
      (by decide),
   classify_source_and_authority.2.2.2.2.2.1 "docs.example.com".data SourceType.docs
      (by decide)⟩

/-! ### C4: mention type classification -/

/-- C4: `_classify_mention` scans the ±50-character window and applies the
four keyword sets with first-match-wins precedence (recommendation, then
comparison, then negative, default direct); in
`"Acme vs Globex is a common comparison."` both "Acme" (offset 0) and
"Globex" (offset 8) classify as COMPARISON. -/
theorem classify_mention_precedence :
    (∀ content position name,
      recommend_patterns.any (fun p => containsSub (windowContext content position name) p) = true →
      classify_mention content position name = MentionType.recommendation) ∧
    (∀ content position name,
      recommend_patterns.any (fun p => containsSub (windowContext content position name) p) = false →
      compare_patterns.any (fun p => containsSub (windowContext content position name) p) = true →
      classify_mention content position name = MentionType.comparison) ∧
    (∀ content position name,
      recommend_patterns.any (fun p => containsSub (windowContext content position name) p) = false →
      compare_patterns.any (fun p => containsSub (windowContext content position name) p) = false →
      negative_patterns.any (fun p => containsSub (windowContext content position name) p) = true →
      classify_mention content position name = MentionType.negative) ∧
    (∀ content position name,
      recommend_patterns.any (fun p => containsSub (windowContext content position name) p) = false →
      compare_patterns.any (fun p => containsSub (windowContext content position name) p) = false →
      negative_patterns.any (fun p => containsSub (windowContext content position name) p) = false →
      classify_mention content position name = MentionType.direct) ∧
    classify_mention "Acme vs Globex is a common comparison.".data 0 "Acme".data =
      MentionType.comparison ∧
    classify_mention "Acme vs Globex is a common comparison.".data 8 "Globex".data =
      MentionType.comparison := by
  refine ⟨?_, ?_, ?_, ?_, by decide, by decide⟩
  · intro content position name h
    simp [classify_mention, h]
  · intro content position name h1 h2
    simp [classify_mention, h1, h2]
  · intro content position name h1 h2 h3
    simp [classify_mention, h1, h2, h3]
  · intro content position name h1 h2 h3
    simp [classify_mention, h1, h2, h3]

/-- C4 witness: the precedence branches applied at concrete inputs
(a recommendation cue wins, and a comparison cue fires only when no
recommendation cue is in the window). -/
theorem classify_mention_precedence_witness :
    classify_mention "I recommend Acme for this.".data 12 "Acme".data =
      MentionType.recommendation ∧
    classify_mention "Acme vs Globex is a common comparison.".data 0 "Acme".data =
      MentionType.comparison :=
  ⟨classify_mention_precedence.1 "I recommend Acme for this.".data 12 "Acme".data (by decide),
   classify_mention_precedence.2.1 "Acme vs Globex is a common comparison.".data 0 "Acme".data
     (by decide) (by decide)⟩

/-! ### C5: frequency score -/

/-- C5: with a positive conversation count the frequency score is exactly
`min(1, ln(1 + 10·rate)/ln(11))` for `rate = mention_count/total`, that
shape is non-decreasing in the rate, the score is exactly 1 when
`mention_count = total_conversations`, and the `or 1` guard keeps the
denominator positive. -/
theorem frequency_score_props :
    (∀ m t : ℕ, 0 < t →
      calculate_frequency_score m t = frequencyOfRate ((m : ℝ) / (t : ℝ))) ∧
    (∀ r1 r2 : ℝ, 0 ≤ r1 → r1 ≤ r2 → frequencyOfRate r1 ≤ frequencyOfRate r2) ∧
    (∀ t : ℕ, 0 < t → calculate_frequency_score t t = 1) ∧
    (∀ n : ℕ, 0 < conversationCountOrOne n) := by
  have hlog : (0:ℝ) < Real.log (1 + 10) := Real.log_pos (by norm_num)
  refine ⟨?_, ?_, ?_, ?_⟩
  · intro m t ht
    rw [calculate_frequency_score, if_neg (Nat.pos_iff_ne_zero.mp ht)]
    rfl
  · intro r1 r2 h0 h12
    unfold frequencyOfRate
    refine min_le_min le_rfl ?_
    refine (div_le_div_right hlog).mpr ?_
    exact Real.log_le_log (by nlinarith) (by nlinarith)
  · intro t ht
    have htR : (t : ℝ) ≠ 0 := Nat.cast_ne_zero.mpr (Nat.pos_iff_ne_zero.mp ht)
    rw [calculate_frequency_score, if_neg (Nat.pos_iff_ne_zero.mp ht), div_self htR]
    rw [one_mul]
    rw [div_self (ne_of_gt hlog)]
    exact min_self 1
  · intro n
    unfold conversationCountOrOne
    split <;> omega

/-- C5 witness: the monotonicity and saturation facts at concrete counts. -/
theorem frequency_score_props_witness :
    calculate_frequency_score 1 2 = frequencyOfRate (((1 : ℕ) : ℝ) / ((2 : ℕ) : ℝ)) ∧
    frequencyOfRate 0 ≤ frequencyOfRate 1 ∧
    calculate_frequency_score 2 2 = 1 :=
  ⟨frequency_score_props.1 1 2 (by norm_num),
   frequency_score_props.2.1 0 1 (by norm_num) (by norm_num),
   frequency_score_props.2.2.1 2 (by norm_num)⟩

/-! ### C6: trend change and direction -/

/-- C6 counterexample: the returned `change` is `round(change, 1)`, not the
raw formula value. At `current_avg = 3.1`, `prev_avg = 3` the formula
gives `10/3 ≈ 3.33` but the function returns `3.3`. -/
theorem calculate_trend_change_rounded :
    (calculate_trend (31/10) 3).2 ≠ rawTrendChange (31/10) 3 := by
  have h1 : rawTrendChange (31/10 : ℚ) 3 = 10/3 := by
    rw [rawTrendChange, if_pos (by norm_num : (0:ℚ) < 3)]
    norm_num
  have hf : ⌊((10:ℚ)/3 * 10)⌋ = 33 := by
    rw [Int.floor_eq_iff]
    norm_num
  have h2 : pythonRound1 ((10:ℚ)/3) = 33/10 := by
    rw [pythonRound1, pythonRoundInt, hf, if_pos (by norm_num)]
    norm_num
  show pythonRound1 (rawTrendChange (31/10) 3) ≠ rawTrendChange (31/10) 3
  rw [h1, h2]
  norm_num

/-- C6 (amended): the trend computation derives
`change = (current-prev)/prev·100` when `prev > 0`, else 100 when
`current > 0`, else 0; the direction is computed from that unrounded change
with strict thresholds ("up" iff change > 5, "down" iff change < -5,
"stable" otherwise, so ±5 exactly is "stable" and +5.01 is "up"); the
returned change value is the unrounded change rounded to one decimal. -/
theorem calculate_trend_amended :
    (∀ current_avg prev_avg : ℚ,
      (calculate_trend current_avg prev_avg).2 =
        pythonRound1 (rawTrendChange current_avg prev_avg) ∧
      rawTrendChange current_avg prev_avg =
        (if 0 < prev_avg then (current_avg - prev_avg) / prev_avg * 100
         else if 0 < current_avg then 100 else 0) ∧
      ((calculate_trend current_avg prev_avg).1 = "up".data ↔
        5 < rawTrendChange current_avg prev_avg) ∧
      ((calculate_trend current_avg prev_avg).1 = "down".data ↔
        rawTrendChange current_avg prev_avg < -5) ∧
      ((calculate_trend current_avg prev_avg).1 = "stable".data ↔
        (-5 ≤ rawTrendChange current_avg prev_avg ∧
          rawTrendChange current_avg prev_avg ≤ 5))) ∧
    (calculate_trend 105 100).1 = "stable".data ∧
    (calculate_trend 95 100).1 = "stable".data ∧
    (calculate_trend (10501/100) 100).1 = "up".data := by
  have hup : ∀ ch : ℚ, trendDirection ch = "up".data ↔ 5 < ch := by
    intro ch
    constructor
    · intro h
      by_contra h1
      unfold trendDirection at h
      rw [if_neg h1] at h
      by_cases h2 : ch < -5
      · rw [if_pos h2] at h
        exact absurd h (by decide)
      · rw [if_neg h2] at h
        exact absurd h (by decide)
    · intro h1
      unfold trendDirection
      rw [if_pos h1]
  have hdown : ∀ ch : ℚ, trendDirection ch = "down".data ↔ ch < -5 := by
    intro ch
    constructor
    · intro h
      by_cases h1 : 5 < ch
      · unfold trendDirection at h
        rw [if_pos h1] at h
        exact absurd h (by decide)
      · by_contra h2
        unfold trendDirection at h
        rw [if_neg h1, if_neg h2] at h
        exact absurd h (by decide)
    · intro h2
      have h1 : ¬ 5 < ch := by linarith
      unfold trendDirection
      rw [if_neg h1, if_pos h2]
  have hstable : ∀ ch : ℚ, trendDirection ch = "stable".data ↔ (-5 ≤ ch ∧ ch ≤ 5) := by
    intro ch
    constructor
    · intro h
      by_cases h1 : 5 < ch
      · unfold trendDirection at h
        rw [if_pos h1] at h
        exact absurd h (by decide)
      · by_cases h2 : ch < -5
        · unfold trendDirection at h
          rw [if_neg h1, if_pos h2] at h
          exact absurd h (by decide)
        · exact ⟨by linarith, by linarith⟩
    · intro hb
      have h1 : ¬ 5 < ch := by linarith [hb.2]
      have h2 : ¬ ch < -5 := by linarith [hb.1]
      unfold trendDirection
      rw [if_neg h1, if_neg h2]
  refine ⟨?_, ?_, ?_, ?_⟩
  · intro current_avg prev_avg
    exact ⟨rfl, rfl, hup _, hdown _, hstable _⟩
  · show trendDirection (rawTrendChange 105 100) = "stable".data
    have : rawTrendChange (105:ℚ) 100 = 5 := by
      rw [rawTrendChange, if_pos (by norm_num : (0:ℚ) < 100)]
      norm_num
    rw [this]
    decide
  · show trendDirection (rawTrendChange 95 100) = "stable".data
    have : rawTrendChange (95:ℚ) 100 = -5 := by
      rw [rawTrendChange, if_pos (by norm_num : (0:ℚ) < 100)]
      norm_num
    rw [this]
    decide
  · show trendDirection (rawTrendChange (10501/100) 100) = "up".data
    have : rawTrendChange ((10501:ℚ)/100) 100 = 501/100 := by
      rw [rawTrendChange, if_pos (by norm_num : (0:ℚ) < 100)]
      norm_num
    rw [this]
    rw [trendDirection, if_pos (by norm_num : (5:ℚ) < 501/100)]

/-! ### C10: fallback scoring -/

/-- C10: with no stored `VisibilityScore` rows, `get_visibility` falls back
to `min(100, 5·mention_count)` with `None` previous score and change, and
`get_ranking` resolves a missing latest score through the same
`min(100, 5·mention_count)` fallback while a present score is used as is;
the cap makes 21 mentions score 100 while 3 mentions score 15. -/
theorem visibility_fallback :
    (∀ mc : ℕ, visibility_metrics [] mc = (min 100 ((mc : ℚ) * 5), none, none, mc)) ∧
    (∀ mc : ℕ, ranking_brand_score none mc = min 100 ((mc : ℚ) * 5)) ∧
    (∀ s : ℚ, ∀ mc : ℕ, ranking_brand_score (some s) mc = s) ∧
    min 100 ((21 : ℚ) * 5) = 100 ∧ min 100 ((3 : ℚ) * 5) = 15 := by
  refine ⟨fun mc => rfl, fun mc => rfl, fun s mc => rfl, by norm_num, by norm_num⟩

/-! ### C9 and C1: upload batch accounting and rollback behavior -/

/-- Loop invariant: every item adds exactly one unit to either the processed
counter or the error list. -/
theorem uploadLoop_counts :
    ∀ (items : List ConversationUploadItem) (sess : Session) (p f : Nat) (e : List Str),
      (uploadLoop sess p f e items).2.1 + ((uploadLoop sess p f e items).2.2.2).length =
        p + e.length + items.length
  | [], sess, p, f, e => by simp [uploadLoop]
  | item :: rest, sess, p, f, e => by
    rw [uploadLoop]
    cases h : processItem sess item with
    | ok pr =>
      obtain ⟨s', m⟩ := pr
      have ih := uploadLoop_counts rest s' (p + 1) (f + m) e
      dsimp only
      rw [ih]
      simp only [List.length_cons]
      omega
    | error er =>
      have ih := uploadLoop_counts rest { sess with pending := DB.empty } p f
        (e ++ [errorEntry item er])
      dsimp only
      rw [ih]
      simp only [List.length_append, List.length_cons, List.length_nil]
      omega

/-- C9: the upload response always reports `received` = number of input
items, and every input item lands in exactly one of the processed count or
the error list (`processed + |errors| = received`). -/
theorem upload_response_counts :
    ∀ (sess : Session) (items : List ConversationUploadItem),
      (upload_conversations sess items).2.received = items.length ∧
      (upload_conversations sess items).2.processed +
        ((upload_conversations sess items).2.errors).length = items.length := by
  intro sess items
  refine ⟨rfl, ?_⟩
  have h := uploadLoop_counts items sess 0 0 []
  simpa [upload_conversations] using h

/-- C1 counterexample: in the batch `[a, c1, b]` against a store already
holding conversation `c1`, item `a` processes first and counts as
processed, item `c1` fails at flush, and the rollback discards `a`'s
pending writes too — the final committed table holds only `c1` (preexisting)
and `b`, so a previously processed conversation of the batch did not
commit. -/
theorem upload_rollback_counterexample :
    ((upload_conversations cexSession [cexItemA, cexItemB, cexItemC]).2.processed = 2) ∧
    ((upload_conversations cexSession [cexItemA, cexItemB, cexItemC]).2.errors.length = 1) ∧
    ((upload_conversations cexSession [cexItemA, cexItemB, cexItemC]).1.committed.conversations.map
        (fun c => c.id) = ["c1".data, "b".data]) := by
  refine ⟨by decide, by decide, by decide⟩

/-- Successful item processing leaves the committed tables and the brand
registry untouched and appends the new conversation (carrying the item's
id), its messages, and its mentions to the pending write set. -/
theorem processItem_ok_shape {sess : Session} {item : ConversationUploadItem}
    {s' : Session} {m : Nat} (h : processItem sess item = Except.ok (s', m)) :
    s'.committed = sess.committed ∧ s'.brands = sess.brands ∧
    ∃ conv msgs mens, conv.id = item.id ∧
      s'.pending = { conversations := sess.pending.conversations ++ [conv],
                     messages := sess.pending.messages ++ msgs,
                     mentions := sess.pending.mentions ++ mens } := by
  unfold processItem at h
  split at h
  · exact Except.noConfusion h
  · split at h
    · exact Except.noConfusion h
    · injection h with h'
      injection h' with h1 h2
      subst h1
      exact ⟨rfl, rfl, _, _, _, rfl, rfl⟩

/-- Helper: the response of a three-item batch whose middle item fails. -/
theorem upload_three_loop (sess : Session) (a b c : ConversationUploadItem)
    (sA : Session) (mA : Nat) (hA : processItem sess a = Except.ok (sA, mA))
    (eB : Str) (hB : processItem sA b = Except.error eB)
    (sC : Session) (mC : Nat)
    (hC : processItem { sA with pending := DB.empty } c = Except.ok (sC, mC)) :
    uploadLoop sess 0 0 [] [a, b, c] = (sC, 2, mA + mC, [errorEntry b eB]) := by
  rw [uploadLoop, hA]
  dsimp only
  rw [uploadLoop, hB]
  dsimp only
  rw [uploadLoop, hC]
  dsimp only
  rw [uploadLoop]
  norm_num

/-- C1 (amended): a failure on one conversation is caught and recorded as an
error string, but the rollback discards every pending write of the batch so
far — the failing conversation's writes and those of all previously
processed (not yet committed) conversations, which nonetheless remain
counted in `processed`; only conversations processed after the last error
are committed. In a batch `[a, b, c]` where `a` and `c` process cleanly and
`b` raises, the response reports `received 3, processed 2`, one error entry
for `b`, and the committed store gains exactly `c`'s conversation. -/
theorem upload_rollback_amended (sess : Session) (a b c : ConversationUploadItem)
    (sA : Session) (mA : Nat) (hA : processItem sess a = Except.ok (sA, mA))
    (eB : Str) (hB : processItem sA b = Except.error eB)
    (sC : Session) (mC : Nat)
    (hC : processItem { sA with pending := DB.empty } c = Except.ok (sC, mC)) :
    (upload_conversations sess [a, b, c]).2 =
      { received := 3, processed := 2, brand_mentions_found := mA + mC,
        errors := [errorEntry b eB] } ∧
    ∃ conv msgs mens, conv.id = c.id ∧
      (upload_conversations sess [a, b, c]).1.committed =
        { conversations := sC.committed.conversations ++ [conv],
          messages := sC.committed.messages ++ msgs,
          mentions := sC.committed.mentions ++ mens } ∧
      sC.committed = sess.committed := by
  obtain ⟨hCcom, hCbr, conv, msgs, mens, hcid, hpend⟩ := processItem_ok_shape hC
  have hAcom : sA.committed = sess.committed := (processItem_ok_shape hA).1
  have hCc : sC.committed = sess.committed := hCcom.trans hAcom
  have hloop := upload_three_loop sess a b c sA mA hA eB hB sC mC hC
  constructor
  · show ({ received := [a, b, c].length
            processed := (uploadLoop sess 0 0 [] [a, b, c]).2.1
            brand_mentions_found := (uploadLoop sess 0 0 [] [a, b, c]).2.2.1
            errors := (uploadLoop sess 0 0 [] [a, b, c]).2.2.2 } : UploadResponse) = _
    rw [hloop]
    rfl
  · refine ⟨conv, msgs, mens, hcid, ?_, hCc⟩
    show DB.merge (uploadLoop sess 0 0 [] [a, b, c]).1.committed
      (uploadLoop sess 0 0 [] [a, b, c]).1.pending = _
    rw [hloop]
    show DB.merge sC.committed sC.pending = _
    rw [hpend]
    simp [DB.merge, DB.empty]

/-- C1 witness: the amended behavior at the concrete three-item batch of the
counterexample. -/
theorem upload_rollback_amended_witness :
    (upload_conversations cexSession [cexItemA, cexItemB, cexItemC]).2 =
      { received := 3, processed := 2, brand_mentions_found := 0,
        errors := [errorEntry cexItemB "UNIQUE constraint failed: conversations.id".data] } :=
  (upload_rollback_amended cexSession cexItemA cexItemB cexItemC cexSA 0 rfl
    "UNIQUE constraint failed: conversations.id".data rfl cexSC 0 rfl).1

/-! ### C7: ranking sort stability, order, ranks, and target exclusion -/

/-- Membership after a stable descending insertion. -/
theorem mem_insertScoreDesc {z x : RankingItem} :
    ∀ {l : List RankingItem}, z ∈ insertScoreDesc x l → z = x ∨ z ∈ l
  | [], h => by
    rw [insertScoreDesc] at h
    simpa using h
  | y :: ys, h => by
    rw [insertScoreDesc] at h
    split at h
    · simpa using h
    · rcases List.mem_cons.mp h with h1 | h2
      · exact Or.inr (h1 ▸ List.mem_cons_self y ys)
      · rcases mem_insertScoreDesc h2 with h3 | h4
        · exact Or.inl h3
        · exact Or.inr (List.mem_cons_of_mem y h4)

/-- Inserting adds one element. -/
theorem length_insertScoreDesc (x : RankingItem) :
    ∀ l : List RankingItem, (insertScoreDesc x l).length = l.length + 1
  | [] => rfl
  | y :: ys => by
    rw [insertScoreDesc]
    split
    · rfl
    · simp [length_insertScoreDesc x ys]

/-- Sorting preserves length. -/
theorem length_sortScoreDesc :
    ∀ l : List RankingItem, (sortScoreDesc l).length = l.length
  | [] => rfl
  | x :: xs => by
    rw [sortScoreDesc, length_insertScoreDesc, length_sortScoreDesc xs]
    rfl

/-- Stability of one insertion: the sublist of entries at any fixed score is
either unchanged or gets the new element prepended, because an element moves
past only strictly greater-scored entries. -/
theorem filter_insertScoreDesc (s : ℚ) (x : RankingItem) :
    ∀ l : List RankingItem,
      (insertScoreDesc x l).filter (fun r => r.score == s) =
        if x.score == s then x :: l.filter (fun r => r.score == s)
        else l.filter (fun r => r.score == s)
  | [] => by
    rw [insertScoreDesc]
    by_cases hxs : x.score == s <;> simp [List.filter, hxs]
  | y :: ys => by
    by_cases hxy : y.score ≤ x.score
    · rw [insertScoreDesc, if_pos hxy]
      by_cases hxs : x.score == s <;> simp [List.filter_cons, hxs]
    · rw [insertScoreDesc, if_neg hxy]
      have ih := filter_insertScoreDesc s x ys
      by_cases hxs : x.score == s
      · have hys : (y.score == s) = false := by
          refine beq_eq_false_iff_ne.mpr ?_
          intro h3
          have h1 : x.score < y.score := not_le.mp hxy
          have h2 : x.score = s := beq_iff_eq.mp hxs
          rw [h3, ← h2] at h1
          exact lt_irrefl _ h1
        simp [List.filter_cons, hys, ih, hxs]
      · simp [List.filter_cons, ih, hxs]

/-- C7 stability core: sorting preserves the original relative order of
entries with any fixed score. -/
theorem sortScoreDesc_stable (s : ℚ) :
    ∀ l : List RankingItem,
      (sortScoreDesc l).filter (fun r => r.score == s) =
        l.filter (fun r => r.score == s)
  | [] => rfl
  | x :: xs => by
    rw [sortScoreDesc, filter_insertScoreDesc s x (sortScoreDesc xs),
      sortScoreDesc_stable s xs, List.filter_cons]

/-- Insertion preserves the descending-score invariant. -/
theorem pairwise_insertScoreDesc {x : RankingItem} :
    ∀ {l : List RankingItem}, l.Pairwise (fun a b => b.score ≤ a.score) →
      (insertScoreDesc x l).Pairwise (fun a b => b.score ≤ a.score)
  | [], _ => by
    rw [insertScoreDesc]
    simp
  | y :: ys, h => by
    rcases List.pairwise_cons.mp h with ⟨hy, hys⟩
    rw [insertScoreDesc]
    split
    · next hxy =>
      refine List.pairwise_cons.mpr ⟨?_, h⟩
      intro z hz
      rcases List.mem_cons.mp hz with h1 | h2
      · rw [h1]; exact hxy
      · exact le_trans (hy z h2) hxy
    · next hxy =>
      refine List.pairwise_cons.mpr ⟨?_, pairwise_insertScoreDesc hys⟩
      intro z hz
      rcases mem_insertScoreDesc hz with h1 | h2
      · rw [h1]; exact le_of_lt (not_le.mp hxy)
      · exact hy z h2

/-- The sort output is descending by score. -/
theorem sorted_sortScoreDesc :
    ∀ l : List RankingItem, (sortScoreDesc l).Pairwise (fun a b => b.score ≤ a.score)
  | [] => List.Pairwise.nil
  | x :: xs => by
    rw [sortScoreDesc]
    exact pairwise_insertScoreDesc (sorted_sortScoreDesc xs)

/-- Rank assignment writes consecutive positions. -/
theorem assignRanks_map_rank :
    ∀ (l : List RankingItem) (n : Nat),
      (assignRanks l n).map (fun r => r.rank) = List.range' (n + 1) l.length
  | [], n => rfl
  | x :: xs, n => by
    rw [assignRanks]
    simp [List.range', assignRanks_map_rank xs (n + 1)]

/-- Rank assignment preserves length. -/
theorem length_assignRanks :
    ∀ (l : List RankingItem) (n : Nat), (assignRanks l n).length = l.length
  | [], _ => rfl
  | x :: xs, n => by
    rw [assignRanks]
    simp [length_assignRanks xs (n + 1)]

/-- C7: `get_ranking` sorts candidates by a stable descending sort (entries
with equal scores keep their original enumeration order), assigns ranks
1..N by sorted position, counts the queried brand in `total_brands`, and
excludes it (by normalized name) from the returned competitor list. -/
theorem get_ranking_props :
    (∀ (l : List RankingItem) (s : ℚ),
      (sortScoreDesc l).filter (fun r => r.score == s) =
        l.filter (fun r => r.score == s)) ∧
    (∀ l : List RankingItem,
      (sortScoreDesc l).Pairwise (fun a b => b.score ≤ a.score)) ∧
    (∀ (brand : Str) (prelim : List RankingItem) (limit : Nat),
      (get_ranking brand prelim limit).total_brands = prelim.length ∧
      (assignRanks (sortScoreDesc prelim) 0).map (fun r => r.rank) =
        List.range' 1 prelim.length) ∧
    (∀ (brand : Str) (prelim : List RankingItem) (limit : Nat) (r : RankingItem),
      r ∈ (get_ranking brand prelim limit).rankings →
      normalize_brand_name r.brand_name ≠ normalize_brand_name brand) := by
  refine ⟨fun l s => sortScoreDesc_stable s l, sorted_sortScoreDesc, ?_, ?_⟩
  · intro brand prelim limit
    constructor
    · show (assignRanks (sortScoreDesc prelim) 0).length = prelim.length
      rw [length_assignRanks, length_sortScoreDesc]
    · rw [assignRanks_map_rank, length_sortScoreDesc]
  · intro brand prelim limit r hr
    have hmem : r ∈ (assignRanks (sortScoreDesc prelim) 0).filter
        (fun r => !(normalize_brand_name r.brand_name == normalize_brand_name brand)) :=
      List.mem_of_mem_take hr
    have hp := (List.mem_filter.mp hmem).2
    simpa using hp

/-- C7 witness: a two-entry ranking queried for "X" counts both brands but
returns only "Y" (with rank 2) as a competitor. -/
theorem get_ranking_props_witness :
    (get_ranking "X".data [rankItemX, rankItemY] 10).total_brands = 2 ∧
    rankedY ∈ (get_ranking "X".data [rankItemX, rankItemY] 10).rankings ∧
    normalize_brand_name rankedY.brand_name ≠ normalize_brand_name "X".data :=
  ⟨(get_ranking_props.2.2.1 "X".data [rankItemX, rankItemY] 10).1, by decide,
   get_ranking_props.2.2.2 "X".data [rankItemX, rankItemY] 10 rankedY (by decide)⟩

/-! ### C3: at most one mention per (brand, message), first occurrence -/

/-- A mention produced by the candidate loop carries the brand's display
name and the message's id. -/
theorem firstCandidate_fields {convId : Str} {msg : Message} {b : Brand} :
    ∀ {names : List Str} {men : BrandMention},
      firstCandidate convId msg b names = some men →
      men.brand_name = b.name ∧ men.message_id = msg.id
  | [], men, h => by
    rw [firstCandidate] at h
    exact Option.noConfusion h
  | name :: rest, men, h => by
    rw [firstCandidate] at h
    split at h
    · injection h with h'
      subst h'
      exact ⟨rfl, rfl⟩
    · exact firstCandidate_fields h

/-- Fields of the mention produced for one brand in one message. -/
theorem mentionForBrand_fields {convId : Str} {msg : Message} {b : Brand}
    {men : BrandMention} (h : mentionForBrand convId msg b = some men) :
    men.brand_name = b.name ∧ men.message_id = msg.id := by
  unfold mentionForBrand at h
  exact firstCandidate_fields h

/-- A message other than the target contributes no matching mention. -/
theorem countP_mentionsInMessage_eq_zero (convId : Str) (m' : Message) (mid : Nat)
    (bname : Str) (hne : m'.id ≠ mid) (active : List Brand) :
    (mentionsInMessage active convId m').countP
      (fun men => men.message_id == mid && men.brand_name == bname) = 0 := by
  refine List.countP_eq_zero.mpr ?_
  intro men hmen hp
  obtain ⟨b', hb', hf⟩ := List.mem_filterMap.mp hmen
  have hfields := mentionForBrand_fields hf
  simp only [Bool.and_eq_true, beq_iff_eq] at hp
  exact hne (hfields.2.symm.trans hp.1)

/-- With pairwise distinct brand names, one message yields at most one
matching mention: each brand contributes at most one mention, and at most
one brand carries the target name. -/
theorem countP_mentionsInMessage_le_one (convId : Str) (m' : Message) (mid : Nat)
    (bname : Str) :
    ∀ active : List Brand, (active.map (fun b => b.name)).Nodup →
      (mentionsInMessage active convId m').countP
        (fun men => men.message_id == mid && men.brand_name == bname) ≤ 1
  | [], _ => by simp [mentionsInMessage]
  | b' :: bs, hnd => by
    have h0 : (b'.name :: bs.map (fun b => b.name)).Nodup := by simpa using hnd
    obtain ⟨hni, hnd'⟩ := List.nodup_cons.mp h0
    show ((b' :: bs).filterMap (fun b => mentionForBrand convId m' b)).countP _ ≤ 1
    rw [List.filterMap_cons]
    cases hf : mentionForBrand convId m' b' with
    | none =>
      exact countP_mentionsInMessage_le_one convId m' mid bname bs hnd'
    | some men =>
      rw [List.countP_cons]
      by_cases hp : (men.message_id == mid && men.brand_name == bname) = true
      · have hflds := mentionForBrand_fields hf
        have hbn : b'.name = bname := by
          simp only [Bool.and_eq_true, beq_iff_eq] at hp
          rw [← hflds.1]
          exact hp.2
        have hrest : (bs.filterMap (fun b => mentionForBrand convId m' b)).countP
            (fun men => men.message_id == mid && men.brand_name == bname) = 0 := by
          refine List.countP_eq_zero.mpr ?_
          intro men' hmen' hp'
          obtain ⟨b'', hb'', hf''⟩ := List.mem_filterMap.mp hmen'
          have hflds'' := mentionForBrand_fields hf''
          simp only [Bool.and_eq_true, beq_iff_eq] at hp'
          have hb2 : b''.name = bname := by
            rw [← hflds''.1]
            exact hp'.2
          have hm : b''.name ∈ bs.map (fun b => b.name) :=
            List.mem_map_of_mem (fun b => b.name) hb''
          rw [hb2, ← hbn] at hm
          exact hni hm
        rw [hrest, if_pos hp]
      · rw [if_neg hp]
        simpa using countP_mentionsInMessage_le_one convId m' mid bname bs hnd'

/-- Ascending insertion is a permutation. -/
theorem insertAsc_perm (x : Message) :
    ∀ l : List Message, List.Perm (insertAsc x l) (x :: l)
  | [] => List.Perm.refl _
  | y :: ys => by
    rw [insertAsc]
    split
    · exact List.Perm.refl _
    · exact ((insertAsc_perm x ys).cons y).trans (List.Perm.swap x y ys)

/-- Sorting by sequence is a permutation. -/
theorem sortBySequence_perm : ∀ l : List Message, List.Perm (sortBySequence l) l
  | [] => List.Perm.refl _
  | m :: ms => (insertAsc_perm m (sortBySequence ms)).trans ((sortBySequence_perm ms).cons m)

/-- Across messages with pairwise distinct ids, the per-message matching
counts sum to at most one. -/
theorem sum_countP_le_one (convId : Str) (mid : Nat) (bname : Str) (active : List Brand)
    (hnd : (active.map (fun b => b.name)).Nodup) :
    ∀ ml : List Message, (ml.map (fun m => m.id)).Nodup →
      (ml.map (fun m' => (mentionsInMessage active convId m').countP
        (fun men => men.message_id == mid && men.brand_name == bname))).sum ≤ 1
  | [], _ => by simp
  | m' :: ms', hml => by
    have h0 : (m'.id :: ms'.map (fun m => m.id)).Nodup := by simpa using hml
    obtain ⟨hni, hnd'⟩ := List.nodup_cons.mp h0
    rw [List.map_cons, List.sum_cons]
    by_cases hm : m'.id = mid
    · have htail : (ms'.map (fun m'' => (mentionsInMessage active convId m'').countP
          (fun men => men.message_id == mid && men.brand_name == bname))).sum = 0 := by
        refine List.sum_eq_zero ?_
        intro v hv
        obtain ⟨m'', hm'', rfl⟩ := List.mem_map.mp hv
        refine countP_mentionsInMessage_eq_zero convId m'' mid bname ?_ active
        intro he
        have hmm : m''.id ∈ ms'.map (fun m => m.id) :=
          List.mem_map_of_mem (fun m => m.id) hm''
        rw [he, ← hm] at hmm
        exact hni hmm
      rw [htail]
      simpa using countP_mentionsInMessage_le_one convId m' mid bname active hnd
    · rw [countP_mentionsInMessage_eq_zero convId m' mid bname hm active]
      simpa using sum_countP_le_one convId mid bname active hnd ms' hnd'

/-- C3: extraction creates at most one BrandMention per (brand, message)
pair; candidate names are checked in list order starting with the brand
name, so when the brand name itself occurs its mention sits at the first
occurrence offset; a message containing the brand name three times yields
exactly one mention positioned at offset 0. -/
theorem extract_mentions_props :
    (∀ (brands : List Brand) (convId : Str) (msgs : List Message),
      (msgs.map (fun m => m.id)).Nodup → (brands.map (fun b => b.name)).Nodup →
      ∀ (b : Brand) (m : Message),
        (extract_mentions brands convId msgs).countP
          (fun men => men.message_id == m.id && men.brand_name == b.name) ≤ 1) ∧
    (∀ (convId : Str) (msg : Message) (b : Brand) (pos : Nat),
      findSub (pyLower b.name) (pyLower msg.content) = some pos →
      mentionForBrand convId msg b = some (mkMention convId msg b b.name pos)) ∧
    ((extract_mentions [acmeBrand] "c".data [msgAcme3]).map
        (fun men => (men.message_id, men.position, men.mention_type)) =
      [(1, 0, MentionType.direct)]) := by
  refine ⟨?_, ?_, by decide⟩
  · intro brands convId msgs hmid hbn b m
    show (((sortBySequence (msgs.filter
        (fun m => m.conversation_id == convId && m.role == MessageRole.assistant))).map
      (fun m' => mentionsInMessage (brands.filter (fun b => b.is_active)) convId m')).flatten).countP
        (fun men => men.message_id == m.id && men.brand_name == b.name) ≤ 1
    rw [List.countP_flatten, List.map_map]
    have hnd_active : ((brands.filter (fun b => b.is_active)).map (fun b => b.name)).Nodup :=
      List.Nodup.sublist (List.Sublist.map _ (List.filter_sublist brands)) hbn
    have hnd_sorted : ((sortBySequence (msgs.filter
        (fun m => m.conversation_id == convId && m.role == MessageRole.assistant))).map
          (fun m => m.id)).Nodup := by
      have hperm := (sortBySequence_perm (msgs.filter
        (fun m => m.conversation_id == convId && m.role == MessageRole.assistant))).map
          (fun m => m.id)
      refine (hperm.nodup_iff).mpr ?_
      exact List.Nodup.sublist (List.Sublist.map _ (List.filter_sublist msgs)) hmid
    simpa [Function.comp] using
      sum_countP_le_one convId m.id b.name (brands.filter (fun b => b.is_active))
        hnd_active _ hnd_sorted
  · intro convId msg b pos h
    rw [mentionForBrand, namesToCheck, firstCandidate, h]

/-- C3 witness: the count bound and the first-occurrence mention at the
concrete triple-occurrence message. -/
theorem extract_mentions_props_witness :
    (extract_mentions [acmeBrand] "c".data [msgAcme3]).countP
      (fun men => men.message_id == msgAcme3.id && men.brand_name == acmeBrand.name) ≤ 1 ∧
    mentionForBrand "c".data msgAcme3 acmeBrand =
      some (mkMention "c".data msgAcme3 acmeBrand acmeBrand.name 0) :=
  ⟨extract_mentions_props.1 [acmeBrand] "c".data [msgAcme3] (by decide) (by decide)
      acmeBrand msgAcme3,
   extract_mentions_props.2.1 "c".data msgAcme3 acmeBrand 0 (by decide)⟩
